import Mathlib

/-!
Shallow embedding of the RAG service (rag-service-py) for checking its
natural-language specification.

Source files embedded:
  * `rag_system.py`     — `RAGSystem.process_question`, `_fallback_search`,
    `_prepare_context`, `_generate_prompt`, `_prepare_sources`
  * `database_service.py` — `DatabaseService.search_documents`,
    `_rank_documents_by_similarity`, `get_document_count`
  * `openai_service.py` — `generate_response`, `count_tokens`,
    `validate_prompt_length`, `optimize_prompt`
  * `text_processor.py` — `truncate_text`
  * `main.py`           — the `/ask` handler's envelope/status behaviour

External collaborators (the MongoDB store, the scikit-learn vectorizer and
the OpenAI completion API) are modelled as oracles (function parameters) or,
where the spec describes their query semantics, as definitions marked
`Modelled from the spec`.  Python strings are modelled as Lean `String`
(lengths in code points, matching Python `len`), Python float scores as `ℚ`.
-/

namespace RagService

/-- A MongoDB document record as consumed by the service: every field is
optional because the Python code reads them with `doc.get(key, default)`.
`score` models the transient `relevance_score` entry written during ranking. -/
structure Doc where
  id : Option String := none
  subject : Option String := none
  tutor : Option String := none
  className : Option String := none
  document : Option String := none
  uploadedBy : Option String := none
  score : Option ℚ := none
  deriving Repr, DecidableEq

/-- The text fields a query condition can address. -/
inductive FieldName where
  | subject | tutor | className | document | uploadedBy
  deriving Repr, DecidableEq

/-- Reading a field of a document, as Python `doc.get(field)`. -/
def getField (d : Doc) : FieldName → Option String
  | .subject => d.subject
  | .tutor => d.tutor
  | .className => d.className
  | .document => d.document
  | .uploadedBy => d.uploadedBy

/-! ### String helpers mirroring the Python primitives used by the source -/

/-- Python slicing `s[:n]`. -/
def pySlice (s : String) (n : ℕ) : String :=
  String.mk (s.toList.take n)

/-- Does `pat` occur at the head of `s`? -/
def startsWithList (s pat : List Char) : Bool :=
  match s, pat with
  | _, [] => true
  | [], _ :: _ => false
  | a :: as, b :: bs => a = b && startsWithList as bs

/-- Does `pat` occur anywhere in `s`? -/
def subOccurs (pat : List Char) : List Char → Bool
  | [] => pat.isEmpty
  | c :: rest => startsWithList (c :: rest) pat || subOccurs pat rest

/-- Python `pat in s` (substring containment). -/
def strContains (s pat : String) : Bool :=
  subOccurs pat.toList s.toList

/-- Python `s.lower()` (ASCII case folding suffices for the texts the
claims exercise). -/
def pyLower (s : String) : String :=
  String.mk (s.toList.map Char.toLower)

/-- Python `s.strip()`. -/
def pyStrip (s : String) : String :=
  String.mk
    (((s.toList.dropWhile Char.isWhitespace).reverse.dropWhile
      Char.isWhitespace).reverse)

/-- The worker of `pySplitWs`: accumulate the current word (reversed). -/
def wordsGo (cur : List Char) : List Char → List String
  | [] => if cur.isEmpty then [] else [String.mk cur.reverse]
  | c :: cs =>
    if c.isWhitespace then
      if cur.isEmpty then wordsGo [] cs
      else String.mk cur.reverse :: wordsGo [] cs
    else wordsGo (c :: cur) cs

/-- Python `s.split()`: split on whitespace runs, dropping empty pieces. -/
def pySplitWs (s : String) : List String :=
  wordsGo [] s.toList

/-- The worker of `pySplitCh`. -/
def splitChGo (sep : Char) (cur : List Char) : List Char → List String
  | [] => [String.mk cur.reverse]
  | c :: cs =>
    if c = sep then String.mk cur.reverse :: splitChGo sep [] cs
    else splitChGo sep (c :: cur) cs

/-- Python `s.split(sep)` for a one-character separator. -/
def pySplitCh (sep : Char) (s : String) : List String :=
  splitChGo sep [] s.toList

/-- Python `sep.join(lines)` for the newline separator. -/
def joinLines : List String → String
  | [] => ""
  | [s] => s
  | s :: rest => s ++ "\n" ++ joinLines rest

/-- Case-insensitive substring match: the semantics of the source's
`{"$regex": pat, "$options": "i"}` conditions on literal patterns. -/
def ciContains (s pat : String) : Bool :=
  strContains (pyLower s) (pyLower pat)

/-- Index of the last occurrence of `c` in `l`, Python `str.rfind` style. -/
def lastIdxOf (c : Char) : List Char → Option ℕ
  | [] => none
  | x :: xs =>
    match lastIdxOf c xs with
    | some i => some (i + 1)
    | none => if x = c then some 0 else none

/-! ### `text_processor.py` : `truncate_text` (lines 134–149) -/

/-- Embeds `TextProcessor.truncate_text`: truncates keeping whole words, cutting at
`text.rfind(' ', 0, max_length)` (falling back to a hard cut when no space
exists before the limit) and appending `"..."`. -/
def truncate_text (text : String) (maxLength : ℕ) (preserveWords : Bool := true) : String :=
  if text = "" ∨ text.length ≤ maxLength then text
  else if preserveWords then
    let tpos := (lastIdxOf ' ' (text.toList.take maxLength)).getD maxLength
    pySlice text tpos ++ "..."
  else
    pySlice text maxLength ++ "..."

/-! ### `rag_system.py` : `_prepare_context` (lines 123–152) -/

/-- The snippet rendered for one document (the f-string at
`rag_system.py:132`–138): labelled subject / tutor / class lines, then the
document body, with `'N/A'` defaults for the metadata fields and `''` for the
body. -/
def docContext (doc : Doc) : String :=
  "\n**Disciplina:** " ++ doc.subject.getD "N/A" ++
  "\n**Professor:** " ++ doc.tutor.getD "N/A" ++
  "\n**Turma:** " ++ doc.className.getD "N/A" ++
  "\n**Conteúdo:**\n" ++ doc.document.getD "" ++ "\n"

/-- The loop body of `_prepare_context`: accumulates snippets while
`current_length + len(doc_context) <= max_context_length`; the snippet that
would cross the budget is cut to the remaining space (plain slice) with the
`"..."` suffix, provided more than 200 characters remain, and the loop stops. -/
def prepareContextParts (maxLen : ℕ) : List Doc → ℕ → List String
  | [], _ => []
  | d :: ds, cur =>
    let dc := docContext d
    if maxLen < cur + dc.length then
      let remaining := maxLen - cur
      if 200 < remaining then [pySlice dc remaining ++ "..."] else []
    else
      dc :: prepareContextParts maxLen ds (cur + dc.length)

/-- Python `"\n---\n".join(parts)`. -/
def joinSep : List String → String
  | [] => ""
  | [s] => s
  | s :: rest => s ++ "\n---\n" ++ joinSep rest

/-- Embeds `RAGSystem._prepare_context`: the assembled context string. -/
def prepare_context (maxLen : ℕ) (documents : List Doc) : String :=
  joinSep (prepareContextParts maxLen documents 0)

/-! ### `database_service.py` : query construction and store model -/

/-- The shapes of MongoDB queries the service builds.  A `(field, pat)`
condition stands for the source's `{"field": {"$regex": pat, "$options": "i"}}`
(case-insensitive substring on a literal pattern); `textSearch` stands for
`{"$text": {"$search": q}}`. -/
inductive MongoQuery where
  | empty
  | textSearch (q : String)
  | orContains (conds : List (FieldName × String))
  | andContains (conds : List (FieldName × String))
  deriving Repr, DecidableEq

/-- Modelled from the spec: the document store's evaluation of the queries the
service builds (the store itself is outside `src/`).  A case-insensitive regex
condition on a literal pattern holds when the field's value contains the
pattern (a missing field never matches); `$text` match is delegated to the
store's text engine `tm`, a parameter. -/
def evalQuery (tm : String → Doc → Bool) : MongoQuery → Doc → Bool
  | .empty, _ => true
  | .textSearch q, d => tm q d
  | .orContains conds, d =>
    conds.any fun c => ciContains ((getField d c.1).getD "") c.2
  | .andContains conds, d =>
    conds.all fun c => ciContains ((getField d c.1).getD "") c.2

/-- Modelled from the spec: a native full-text search — a document matches
when any whitespace-separated term of the query occurs (case-insensitively)
in one of its text fields.  One concrete instantiation of the `tm` parameter,
used by counterexamples. -/
def textIndexMatch (q : String) (d : Doc) : Bool :=
  (pySplitWs q).any fun w =>
    [d.subject, d.tutor, d.className, d.document].any fun f =>
      ciContains (f.getD "") w

/-- Semantics of `cursor.limit(n)`: MongoDB treats a limit of 0 as "no limit". -/
def applyLimit (n : ℕ) (l : List Doc) : List Doc :=
  if n = 0 then l else l.take n

/-- A store oracle built from a concrete collection: `find(query).limit(n)`
returns the matching documents in collection order. -/
def mkExec (store : List Doc) (tm : String → Doc → Bool) :
    MongoQuery → ℕ → Except String (List Doc) :=
  fun q n => .ok (applyLimit n (store.filter (evalQuery tm q)))

/-- The primary query of `search_documents` (lines 60–64): a `$text` search on
the question whenever `query and query.strip()` is truthy, else the empty
filter.  The `filters` argument of `search_documents` plays no part. -/
def primaryQueryFor (query : String) : MongoQuery :=
  if query ≠ "" ∧ pyStrip query ≠ "" then .textSearch query else .empty

/-- The substring-fallback query of `search_documents` (lines 89–96):
OR of case-insensitive regexes of the lowercased whole question over the four
text fields. -/
def substringQueryFor (query : String) : MongoQuery :=
  .orContains [(.subject, pyLower query), (.tutor, pyLower query),
    (.className, pyLower query), (.document, pyLower query)]

/-- The per-token query of `_fallback_search` (`rag_system.py:78`–93): OR of
case-insensitive regexes `.*word.*` over the four text fields, for one
(already lowercased) word. -/
def tokenQueryFor (word : String) : MongoQuery :=
  .orContains [(.subject, word), (.document, word), (.tutor, word),
    (.className, word)]

/-- Embeds `DatabaseService.get_document_count`, its query construction (lines 181–186):
each filter entry whose value is truthy and strips to a truthy string becomes
a case-insensitive regex on the stripped value; the conditions are a
conjunction (one MongoDB filter document). -/
def countQuery (filters : List (FieldName × String)) : MongoQuery :=
  .andContains
    ((filters.filter fun p => p.2 ≠ "" ∧ pyStrip p.2 ≠ "").map
      fun p => (p.1, pyStrip p.2))

/-! ### `database_service.py` : `_rank_documents_by_similarity` (126–174) -/

/-- The sort key `x['relevance_score']`; every document reaching the sort has
the score set, so the `0` default is never consulted there. -/
def relevance (d : Doc) : ℚ :=
  d.score.getD 0

/-- The combined per-document text handed to the vectorizer
(`database_service.py:135`). -/
def combinedText (d : Doc) : String :=
  d.subject.getD "" ++ " " ++ d.tutor.getD "" ++ " " ++
    d.className.getD "" ++ " " ++ d.document.getD ""

/-- The loop `for i, doc in enumerate(documents): doc['relevance_score'] =
float(similarities[i])`. -/
def assignScores (documents : List Doc) (sims : List ℚ) : List Doc :=
  (documents.zip sims).map fun p => { p.1 with score := some p.2 }

/-- Stable insertion into a descending run: an element is placed before the
first strictly smaller element, hence after every earlier equal-score one —
the order Python's stable `sorted(..., reverse=True)` produces. -/
def insertDesc (x : Doc) : List Doc → List Doc
  | [] => [x]
  | y :: ys => if relevance y ≤ relevance x then x :: y :: ys else y :: insertDesc x ys

/-- Embeds `sorted(documents, key=lambda x: x['relevance_score'], reverse=True)`:
Python's sort is stable, which the insertion sort below realises. -/
def sortByRelevanceDesc : List Doc → List Doc
  | [] => []
  | x :: xs => insertDesc x (sortByRelevanceDesc xs)

/-- Embeds `DatabaseService._rank_documents_by_similarity`.  The scikit-learn
vectorization and cosine similarity are external; their outcome enters as
`simsRes` (an exception, or one similarity per document — a similarity list
shorter than the document list would raise `IndexError` inside the guarded
block, landing in the same handler as a vectorizer failure).  On the failure
path every document gets the neutral score `0.5` unranked; on the success
path the scores are attached, the list is stable-sorted descending, the
hard-coded `min_score = 0.0` filter is applied, and an empty filter result
falls back to the top-scored document alone. -/
def rank_documents_by_similarity (simsRes : Except String (List ℚ))
    (documents : List Doc) : List Doc :=
  match simsRes with
  | .error _ => documents.map fun d => { d with score := some (1/2) }
  | .ok sims =>
    if sims.length < documents.length then
      documents.map fun d => { d with score := some (1/2) }
    else
      let ranked := sortByRelevanceDesc (assignScores documents sims)
      let filtered := ranked.filter fun d => 0 ≤ relevance d
      if filtered.isEmpty then ranked.take 1 else filtered

/-! ### `openai_service.py` and the prompt (`rag_system.py:154`–177) -/

/-- Embeds `RAGSystem._generate_prompt`: the fixed instruction template wrapping
context and question. -/
def generate_prompt (question context : String) : String :=
  "Você é um assistente acadêmico especializado.\nResponda à pergunta abaixo com base no contexto extraído da base de dados.\n\n**Instruções importantes:**\n- Formate a resposta em **tópicos** sempre que possível\n- Use **negrito** nos títulos principais\n- Use <br/> para quebrar linhas entre seções\n- Seja preciso e objetivo\n- Cite as disciplinas e professores quando relevante\n- Se não houver informação suficiente, seja honesto sobre isso\n\n**Contexto útil:**\n"
    ++ context ++ "\n\n**Pergunta:**\n" ++ question ++ "\n\n**Resposta:**"

/-- Embeds `OpenAIService.count_tokens`: the coarse heuristic `len(text) // 4`. -/
def count_tokens (text : String) : ℕ :=
  text.length / 4

/-- Embeds `OpenAIService.validate_prompt_length`: the estimate must not exceed
`4000 - self.max_tokens` (with `max_tokens` from configuration). -/
def validate_prompt_length (maxTokens : ℕ) (prompt : String) : Bool :=
  ¬ (4000 - maxTokens < count_tokens prompt)

/-- Python `lines.index`-style search: first index `i ≥ start` with
`pat in lines[i]`. -/
def findLineWith (lines : List String) (pat : String) (start : ℕ) : Option ℕ :=
  match (lines.drop start).findIdx? (fun l => strContains l pat) with
  | some i => some (start + i)
  | none => none

/-- The context-truncation loop inside `optimize_prompt` (lines 147–156):
keep whole lines while the running length stays within 2000, then append the
truncation marker. -/
def truncCtxLines : List String → ℕ → List String
  | [], _ => []
  | l :: ls, cur =>
    if 2000 < cur + l.length then ["...\n**[Contexto truncado para otimização]**"]
    else l :: truncCtxLines ls (cur + l.length)

/-- Embeds `OpenAIService.optimize_prompt`: when validation fails, locate the
`**Contexto útil:**` and `**Pergunta:**` lines, keep header and footer, and
truncate the context lines to 2000 characters with a marker.  If either
marker line is missing the prompt is returned untouched. -/
def optimize_prompt (maxTokens : ℕ) (prompt : String) : String :=
  if validate_prompt_length maxTokens prompt then prompt
  else
    let lines := pySplitCh '\n' prompt
    match findLineWith lines "**Contexto útil:**" 0 with
    | none => prompt
    | some cs =>
      match findLineWith lines "**Pergunta:**" (cs + 1) with
      | none => prompt
      | some ce =>
        let header := lines.take (cs + 1)
        let footer := lines.drop ce
        let contextLines := (lines.take ce).drop (cs + 1)
        joinLines (header ++ truncCtxLines contextLines 0 ++ footer)

/-- What the completion API returns: the raw message content plus the three
usage counters (`response.usage`). -/
structure OpenAIOut where
  content : String
  prompt_tokens : ℕ
  completion_tokens : ℕ
  total_tokens : ℕ
  deriving Repr, DecidableEq

/-- The value of the response envelope's `tokens_used` entry: the
no-documents path stores the bare number `0`, the generation path stores the
usage dictionary with its three counters. -/
inductive TokensUsed where
  | num (n : ℕ)
  | usage (prompt_tokens completion_tokens total_tokens : ℕ)
  deriving Repr, DecidableEq

/-- Whether `tokens_used` is the usage object (a dict in Python). -/
def TokensUsed.isUsageDict : TokensUsed → Bool
  | .usage _ _ _ => true
  | .num _ => false

/-! ### `rag_system.py` : sources, envelope and the pipeline -/

/-- One entry of the `sources` list (`_prepare_sources`, lines 179–196). -/
structure Source where
  id : String
  subject : String
  tutor : String
  className : String
  uploadedBy : String
  relevance_score : ℚ
  deriving Repr, DecidableEq

/-- Embeds `RAGSystem._prepare_sources`. -/
def prepare_sources (documents : List Doc) : List Source :=
  documents.map fun d =>
    { id := d.id.getD ""
      subject := d.subject.getD "N/A"
      tutor := d.tutor.getD "N/A"
      className := d.className.getD "N/A"
      uploadedBy := d.uploadedBy.getD "N/A"
      relevance_score := d.score.getD 0 }

/-- The response envelope built by `process_question`. -/
structure RagResponse where
  answer : String
  context_used : String
  sources : List Source
  tokens_used : TokensUsed
  deriving Repr, DecidableEq

/-- The fixed envelope of the no-documents path (`rag_system.py:36`–42):
apology answer, empty context, empty sources, `tokens_used = 0`. -/
def noDocsResponse : RagResponse :=
  { answer := "Desculpe, não encontrei informações relevantes para responder sua pergunta. Tente reformular a pergunta ou usar termos mais específicos."
    context_used := ""
    sources := []
    tokens_used := .num 0 }

/-- The retrieval tiers of the pipeline, in the order the code can attempt
them. -/
inductive Tier where
  | primary | substringOR | perToken
  deriving Repr, DecidableEq

/-- The tail of `search_documents` (lines 111–119): an empty raw result
returns `[]`; more than one document goes through the ranker and is capped at
`limit`; a single document is scored `1.0` directly. -/
def finalizeDocs (sims : String → List String → Except String (List ℚ))
    (query : String) (limit : ℕ) (documents : List Doc) :
    Except String (List Doc) :=
  if documents.isEmpty then .ok []
  else if 1 < documents.length then
    .ok ((rank_documents_by_similarity
      (sims query (documents.map combinedText)) documents).take limit)
  else .ok (documents.map fun d => { d with score := some 1 })

/-- Embeds `DatabaseService.search_documents`, with the store behind the oracle
`exec : query → limit → Except …` (a raised `pymongo` error is `.error`, and
`search_documents` re-raises it) and the scikit-learn outcome behind `sims`.
The `filters` parameter is accepted, as in the source, where the body never
reads it.  The sort on a projected `score` key (lines 83–84) is omitted: the
projection of lines 70–76 excludes any such key, so the condition
`'score' in documents[0]` is false.  Returns the result paired with the tiers
attempted. -/
def search_documents (exec : MongoQuery → ℕ → Except String (List Doc))
    (sims : String → List String → Except String (List ℚ))
    (query : String) (filters : List (FieldName × String)) (limit : ℕ) :
    Except String (List Doc) × List Tier :=
  let _ := filters
  match exec (primaryQueryFor query) (limit * 3) with
  | .error e => (.error e, [.primary])
  | .ok docs1 =>
    if docs1.isEmpty ∧ query ≠ "" then
      match exec (substringQueryFor query) (limit * 3) with
      | .error e => (.error e, [.primary, .substringOR])
      | .ok docs2 => (finalizeDocs sims query limit docs2, [.primary, .substringOR])
    else (finalizeDocs sims query limit docs1, [.primary])

/-- De-duplication by `str(doc.get('_id'))` keeping first occurrences — the
insertion-ordered dict of `rag_system.py:103`–109. -/
def dedupByIdGo (seen : List String) : List Doc → List Doc
  | [] => []
  | d :: ds =>
    let key := d.id.getD "None"
    if seen.contains key then dedupByIdGo seen ds
    else d :: dedupByIdGo (key :: seen) ds

/-- First-occurrence de-duplication by document id. -/
def dedupById (docs : List Doc) : List Doc :=
  dedupByIdGo [] docs

/-- Embeds `RAGSystem._fallback_search`: words longer than 3 characters, lowercased;
one per-token OR query per word with `.limit(3)` (a failing query is skipped
by the inner handler); results concatenated, de-duplicated by id, scored
`0.3`, capped at `max_results`.  Paired with the tier attempted ( none when
there is no qualifying word, since no query is issued).  The outer handler of
lines 119–121 is unreachable — every store call sits inside the per-word
handler — and is therefore not modelled. -/
def fallback_search (exec : MongoQuery → ℕ → Except String (List Doc))
    (question : String) (maxResults : ℕ) : List Doc × List Tier :=
  let words := ((pySplitWs question).filter fun w => 3 < w.length).map pyLower
  if words.isEmpty then ([], [])
  else
    let allDocs := words.foldl (fun acc w =>
      match exec (tokenQueryFor w) 3 with
      | .error _ => acc
      | .ok docs => acc ++ docs) []
    let uniq := dedupById allDocs
    ((uniq.map fun d => { d with score := some (3/10) }).take maxResults,
      [.perToken])

/-- The documents the pipeline ends up holding after `search_documents` plus,
when that returned an empty list, `_fallback_search` — the deterministic
retrieval phase of `process_question`. -/
def retrievedDocs (exec : MongoQuery → ℕ → Except String (List Doc))
    (sims : String → List String → Except String (List ℚ))
    (question : String) (filters : List (FieldName × String))
    (maxResults : ℕ) : Except String (List Doc) :=
  match (search_documents exec sims question filters maxResults).1 with
  | .error e => .error e
  | .ok [] => .ok (fallback_search exec question maxResults).1
  | .ok docs => .ok docs

/-- One run of `process_question`, with its observable effects: the result
(or the re-raised exception), every prompt dispatched to the completion API,
and the retrieval tiers attempted. -/
structure RunResult where
  result : Except String RagResponse
  promptsSent : List String
  tiers : List Tier
  deriving Repr

/-- Embeds `RAGSystem.process_question`.  `exec` is the store, `sims` the vectorizer
outcome, `api` the completion API (`generate_response` strips the returned
content and repackages the usage counters; an API error is re-raised).  The
retrieval error path re-raises (`rag_system.py:58`–60). -/
def process_question (exec : MongoQuery → ℕ → Except String (List Doc))
    (sims : String → List String → Except String (List ℚ))
    (api : String → Except String OpenAIOut)
    (question : String) (filters : List (FieldName × String))
    (maxResults maxContextLength : ℕ) : RunResult :=
  let (res1, tiers1) := search_documents exec sims question filters maxResults
  match res1 with
  | .error e => { result := .error e, promptsSent := [], tiers := tiers1 }
  | .ok docs1 =>
    let (docs, tiers) :=
      if docs1.isEmpty then
        let (fdocs, ftiers) := fallback_search exec question maxResults
        (fdocs, tiers1 ++ ftiers)
      else (docs1, tiers1)
    if docs.isEmpty then
      { result := .ok noDocsResponse, promptsSent := [], tiers := tiers }
    else
      let context := prepare_context maxContextLength docs
      let prompt := generate_prompt question context
      match api prompt with
      | .error e => { result := .error e, promptsSent := [prompt], tiers := tiers }
      | .ok o =>
        { result := .ok
            { answer := pyStrip o.content
              context_used := context
              sources := prepare_sources docs
              tokens_used := .usage o.prompt_tokens o.completion_tokens o.total_tokens }
          promptsSent := [prompt]
          tiers := tiers }

/-! ### `main.py` : the `/ask` handler's outcome -/

/-- What the route returns to the HTTP client, reduced to the fields the
claims mention. -/
structure HttpReply where
  statusCode : ℕ
  statusField : String
  errorMsg : Option String
  deriving Repr, DecidableEq

/-- The `/ask` handler around `process_question` (`main.py:50`–65): a result
becomes a 200 success envelope; a propagated exception is caught and becomes
a 500 `Erro interno` envelope. -/
def ask_question_outcome (res : Except String RagResponse) : HttpReply :=
  match res with
  | .ok _ => { statusCode := 200, statusField := "success", errorMsg := none }
  | .error e =>
    { statusCode := 500, statusField := "error"
      errorMsg := some ("Erro interno: " ++ e) }

/-- The optional-filter assembly of `main.py:37`–44: present, non-empty
values survive. -/
def buildFilters (subject tutor className : Option String) :
    List (FieldName × String) :=
  ([(FieldName.subject, subject), (FieldName.tutor, tutor),
    (FieldName.className, className)]).filterMap fun p =>
      p.2.bind fun v => if v = "" then none else some (p.1, v)

/-! ### Small observations used in theorem statements -/

/-- Does the string end with the truncation marker `"..."`? -/
def endsWithMarker (s : String) : Bool :=
  s.toList.reverse.take 3 == ['.', '.', '.']

/-- Builds `n` copies of `s` glued together. -/
def repeatStr (n : ℕ) (s : String) : String :=
  String.join (List.replicate n s)

/-! ### Concrete data for counterexamples and witnesses -/

/-- A 100-character body. -/
def bodyX : String := repeatStr 100 "x"

/-- Another 100-character body. -/
def bodyY : String := repeatStr 100 "y"

/-- A body of 34 five-character words followed by one 60-letter word: the
character at offset 173 of its snippet rendering falls inside the long word. -/
def bodyWords : String := repeatStr 34 "word " ++ repeatStr 60 "z"

/-- Document with single-letter metadata and the 100-`x` body; its snippet
`docContext` is 164 characters long. -/
def docX : Doc :=
  { id := some "1", subject := some "A", tutor := some "B",
    className := some "C", document := some bodyX }

/-- Document with single-letter metadata and the 100-`y` body. -/
def docY : Doc :=
  { id := some "2", subject := some "A", tutor := some "B",
    className := some "C", document := some bodyY }

/-- Document whose body is `bodyWords`; its snippet is 294 characters long. -/
def docWords : Doc :=
  { id := some "3", subject := some "A", tutor := some "B",
    className := some "C", document := some bodyWords }

/-- A document about art history whose body mentions calculus. -/
def docHistory : Doc :=
  { id := some "9", subject := some "History of Art", tutor := some "Ana",
    className := some "T1", document := some "calculus notes for art signal processing" }

/-- A store oracle that always returns one fixed document. -/
def execOneDoc : MongoQuery → ℕ → Except String (List Doc) :=
  fun _ _ => .ok [docX]

/-- A store holding only `docHistory`, queried under the token-based text
engine. -/
def execHistory : MongoQuery → ℕ → Except String (List Doc) :=
  mkExec [docHistory] textIndexMatch

/-- A store oracle whose every query returns no documents. -/
def execEmpty : MongoQuery → ℕ → Except String (List Doc) :=
  fun _ _ => .ok []

/-- A store oracle that always raises. -/
def execFail : MongoQuery → ℕ → Except String (List Doc) :=
  fun _ _ => .error "store unreachable"

/-- A vectorizer oracle that always fails (never consulted in the runs that
use it). -/
def simsNone : String → List String → Except String (List ℚ) :=
  fun _ _ => .ok []

/-- A completion-API oracle returning a fixed answer and usage counters. -/
def apiFixed : String → Except String OpenAIOut :=
  fun _ => .ok { content := "ok", prompt_tokens := 11, completion_tokens := 7, total_tokens := 18 }

/-- A moderately long question (a user input, not configuration). -/
def longQuestion : String :=
  "Quais sao os pre-requisitos de Calculo I e de Calculo II nesta universidade?"

/-- The envelope produced when `execOneDoc` answers retrieval and `apiFixed`
answers generation. -/
def sampleResponse : RagResponse :=
  { answer := "ok"
    context_used := prepare_context 3000 [{ docX with score := some 1 }]
    sources := prepare_sources [{ docX with score := some 1 }]
    tokens_used := .usage 11 7 18 }

/-! ## Lemmas about the context assembler -/

theorem joinSep_length_cons (a : String) (l : List String) :
    (joinSep (a :: l)).length ≤ a.length + 5 + (joinSep l).length := by
  cases l with
  | nil => simp [joinSep]
  | cons b bs =>
    simp [joinSep, String.length_append]
    decide

theorem length_pySlice (s : String) (n : ℕ) : (pySlice s n).length ≤ n := by
  have : (pySlice s n).length = (s.toList.take n).length := rfl
  rw [this, List.length_take]
  omega

theorem length_append_marker (s : String) : (s ++ "...").length = s.length + 3 :=
  String.length_append s "..."

theorem prepareContextParts_length_bound (maxLen : ℕ) :
    ∀ (docs : List Doc) (cur : ℕ), cur ≤ maxLen →
      (joinSep (prepareContextParts maxLen docs cur)).length + cur ≤
        maxLen + 3 + 5 * docs.length := by
  intro docs
  induction docs with
  | nil =>
    intro cur h
    simp only [prepareContextParts, joinSep, String.length]
    simp
    omega
  | cons d ds ih =>
    intro cur h
    by_cases h1 : maxLen < cur + (docContext d).length
    · by_cases h2 : 200 < maxLen - cur
      · have heq : prepareContextParts maxLen (d :: ds) cur =
            [pySlice (docContext d) (maxLen - cur) ++ "..."] := by
          simp [prepareContextParts, h1, h2]
        rw [heq]
        have hs := length_pySlice (docContext d) (maxLen - cur)
        have hm := length_append_marker (pySlice (docContext d) (maxLen - cur))
        simp only [joinSep]
        omega
      · have heq : prepareContextParts maxLen (d :: ds) cur = [] := by
          simp [prepareContextParts, h1, h2]
        rw [heq]
        simp only [joinSep, String.length]
        simp
        omega
    · have hle : cur + (docContext d).length ≤ maxLen := Nat.le_of_not_lt h1
      have heq : prepareContextParts maxLen (d :: ds) cur =
          docContext d ::
            prepareContextParts maxLen ds (cur + (docContext d).length) := by
        simp [prepareContextParts, h1]
      rw [heq]
      have hj := joinSep_length_cons (docContext d)
        (prepareContextParts maxLen ds (cur + (docContext d).length))
      have hih := ih (cur + (docContext d).length) hle
      simp only [List.length_cons]
      omega

set_option maxRecDepth 20000 in
/-- C2 (counterexample): with a budget of 330 and two documents whose
snippets are 164 characters each, both snippets pass the running-total check
(164 + 164 = 328 ≤ 330), yet the assembled context — with the separator line
the running total never counts — is 333 characters long, exceeding the
configured budget. -/
theorem context_budget_counterexample :
    330 < (prepare_context 330 [docX, docY]).length := by decide

/-- C2 (amended): the context assembler bounds only the sum of the snippet
bodies by the configured budget; the `"\n---\n"` separators (5 characters per
joint) and the `"..."` truncation suffix (3 characters) are not counted, so
the assembled string's total length is only bounded by the budget plus 3 plus
5 per document. -/
theorem prepare_context_length_le (maxLen : ℕ) (documents : List Doc) :
    (prepare_context maxLen documents).length ≤
      maxLen + 3 + 5 * documents.length := by
  have h := prepareContextParts_length_bound maxLen documents 0 (Nat.zero_le _)
  simpa [prepare_context] using h

theorem toList_append (a b : String) : (a ++ b).toList = a.toList ++ b.toList := by
  cases a
  cases b
  rfl

theorem endsWithMarker_append (s : String) :
    endsWithMarker (s ++ "...") = true := by
  have h : (s ++ "...").toList = s.toList ++ ['.', '.', '.'] := toList_append s "..."
  simp [endsWithMarker, h, List.reverse_append]

set_option maxRecDepth 20000 in
/-- C6 (counterexample): budget 400, first snippet 164 characters, second
snippet 294 characters.  The second snippet is cut at the 236-character mark
by a plain slice: the characters on both sides of the cut are the letter `z`
(the cut falls inside a word) although a word boundary (a space) exists
before the limit, and the produced snippet differs from what the
word-boundary helper `truncate_text` would have produced. -/
theorem truncation_midword_counterexample :
    prepareContextParts 400 [docX, docWords] 0 =
      [docContext docX, pySlice (docContext docWords) 236 ++ "..."] ∧
    pySlice (docContext docWords) 236 ++ "..." ≠
      truncate_text (docContext docWords) 236 ∧
    (docContext docWords).toList.getD 235 ' ' = 'z' ∧
    (docContext docWords).toList.getD 236 ' ' = 'z' ∧
    subOccurs [' '] ((docContext docWords).toList.take 236) = true := by
  refine ⟨by decide, by decide, by decide, by decide, by decide⟩

/-- C6 (amended): whenever the document reached with accumulated length `cur`
would cross the budget and more than 200 characters remain, the final snippet
is the plain character slice of the snippet at the remaining space with the
`"..."` marker appended — it always ends with the truncation marker, but the
cut position is a fixed character offset, not a word boundary (the
word-boundary helper `truncate_text` is not consulted). -/
theorem truncation_fixed_cut (maxLen cur : ℕ) (d : Doc) (ds : List Doc)
    (h2 : maxLen < cur + (docContext d).length)
    (h3 : 200 < maxLen - cur) :
    prepareContextParts maxLen (d :: ds) cur =
      [pySlice (docContext d) (maxLen - cur) ++ "..."] ∧
    endsWithMarker (pySlice (docContext d) (maxLen - cur) ++ "...") = true := by
  constructor
  · simp [prepareContextParts, h2, h3]
  · exact endsWithMarker_append _

set_option maxRecDepth 20000 in
/-- Witness for `truncation_fixed_cut`: the hypotheses hold at budget 400,
accumulated length 164 and the 294-character snippet of `docWords`. -/
theorem truncation_fixed_cut_witness :
    (400 < 164 + (docContext docWords).length ∧ 200 < 400 - 164) ∧
    (prepareContextParts 400 [docWords] 164 =
      [pySlice (docContext docWords) 236 ++ "..."] ∧
    endsWithMarker (pySlice (docContext docWords) 236 ++ "...") = true) := by
  refine ⟨⟨by decide, by decide⟩, ?_⟩
  have h := truncation_fixed_cut 400 164 docWords [] (by decide) (by decide)
  simpa using h

/-! ## Lemmas about the ranker -/

theorem mem_insertDesc (x : Doc) (l : List Doc) (y : Doc) :
    y ∈ insertDesc x l ↔ y = x ∨ y ∈ l := by
  induction l with
  | nil => simp [insertDesc]
  | cons a as ih =>
    by_cases h : relevance a ≤ relevance x
    · simp only [insertDesc, h, if_true, List.mem_cons]
    · simp only [insertDesc, h, if_false, List.mem_cons, ih]
      tauto

theorem insertDesc_perm (x : Doc) (l : List Doc) :
    List.Perm (insertDesc x l) (x :: l) := by
  induction l with
  | nil => simp [insertDesc]
  | cons a as ih =>
    by_cases h : relevance a ≤ relevance x
    · simp [insertDesc, h]
    · simp only [insertDesc, h, if_false]
      exact (ih.cons a).trans (List.Perm.swap x a as)

theorem sortByRelevanceDesc_perm (l : List Doc) :
    List.Perm (sortByRelevanceDesc l) l := by
  induction l with
  | nil => simp [sortByRelevanceDesc]
  | cons a as ih =>
    exact (insertDesc_perm a (sortByRelevanceDesc as)).trans (ih.cons a)

theorem pairwise_insertDesc (x : Doc) (l : List Doc)
    (hl : l.Pairwise (fun a b => relevance b ≤ relevance a)) :
    (insertDesc x l).Pairwise (fun a b => relevance b ≤ relevance a) := by
  induction l with
  | nil => simp [insertDesc]
  | cons a as ih =>
    rcases List.pairwise_cons.mp hl with ⟨ha, has⟩
    by_cases h : relevance a ≤ relevance x
    · simp only [insertDesc, h, if_true]
      refine List.pairwise_cons.mpr ⟨?_, hl⟩
      intro b hb
      rcases List.mem_cons.mp hb with rfl | hbs
      · exact h
      · exact le_trans (ha b hbs) h
    · simp only [insertDesc, h, if_false]
      refine List.pairwise_cons.mpr ⟨?_, ih has⟩
      intro b hb
      rcases (mem_insertDesc x as b).mp hb with rfl | hbs
      · exact le_of_lt (lt_of_not_le h)
      · exact ha b hbs

theorem pairwise_sortByRelevanceDesc (l : List Doc) :
    (sortByRelevanceDesc l).Pairwise (fun a b => relevance b ≤ relevance a) := by
  induction l with
  | nil => simp [sortByRelevanceDesc]
  | cons a as ih =>
    exact pairwise_insertDesc a (sortByRelevanceDesc as) ih

theorem filter_insertDesc (x : Doc) (l : List Doc) (c : ℚ) :
    (insertDesc x l).filter (fun d => relevance d == c) =
      if relevance x == c then x :: l.filter (fun d => relevance d == c)
      else l.filter (fun d => relevance d == c) := by
  induction l with
  | nil =>
    by_cases hx : relevance x == c <;> simp [insertDesc, List.filter, hx]
  | cons a as ih =>
    by_cases h : relevance a ≤ relevance x
    · by_cases hx : relevance x == c <;>
        simp [insertDesc, h, List.filter, hx]
    · have hxa : relevance x < relevance a := lt_of_not_le h
      by_cases hx : relevance x == c
      · have hac : ¬ (relevance a == c) := by
          simp only [beq_iff_eq] at hx ⊢
          intro hh
          rw [hh, ← hx] at hxa
          exact lt_irrefl _ hxa
        simp [insertDesc, h, List.filter, hac, ih, hx]
      · by_cases hac : relevance a == c <;>
          simp [insertDesc, h, List.filter, hac, ih, hx]

theorem filter_sortByRelevanceDesc (l : List Doc) (c : ℚ) :
    (sortByRelevanceDesc l).filter (fun d => relevance d == c) =
      l.filter (fun d => relevance d == c) := by
  induction l with
  | nil => simp [sortByRelevanceDesc]
  | cons a as ih =>
    by_cases hac : relevance a == c <;>
      simp [sortByRelevanceDesc, filter_insertDesc, ih, List.filter, hac]

theorem relevance_of_mem_assignScores (documents : List Doc) (sims : List ℚ)
    (d : Doc) (hd : d ∈ assignScores documents sims) :
    relevance d ∈ sims := by
  rcases List.mem_map.mp hd with ⟨p, hp, rfl⟩
  have := (List.of_mem_zip hp).2
  simpa [relevance] using this

theorem length_assignScores (documents : List Doc) (sims : List ℚ)
    (hlen : sims.length = documents.length) :
    (assignScores documents sims).length = documents.length := by
  simp [assignScores, hlen]

theorem rank_ok_eq_sorted (documents : List Doc) (sims : List ℚ)
    (hlen : sims.length = documents.length)
    (hpos : ∀ s ∈ sims, 0 ≤ s) :
    rank_documents_by_similarity (.ok sims) documents =
      sortByRelevanceDesc (assignScores documents sims) := by
  have hnl : ¬ (sims.length < documents.length) := by omega
  have hall : ∀ d ∈ sortByRelevanceDesc (assignScores documents sims),
      (fun d => decide (0 ≤ relevance d)) d = true := by
    intro d hd
    have hd' : d ∈ assignScores documents sims :=
      (sortByRelevanceDesc_perm (assignScores documents sims)).mem_iff.mp hd
    have := hpos _ (relevance_of_mem_assignScores documents sims d hd')
    simpa using this
  have hfe : (sortByRelevanceDesc (assignScores documents sims)).filter
      (fun d => 0 ≤ relevance d) = sortByRelevanceDesc (assignScores documents sims) :=
    List.filter_eq_self.mpr hall
  cases hdoc : documents with
  | nil =>
    subst hdoc
    have : sims = [] := List.length_eq_zero.mp (by simpa using hlen)
    subst this
    simp [rank_documents_by_similarity, assignScores, sortByRelevanceDesc]
  | cons d0 ds =>
    have hne : assignScores (d0 :: ds) sims ≠ [] := by
      have : (assignScores (d0 :: ds) sims).length = (d0 :: ds).length :=
        length_assignScores _ _ (hdoc ▸ hlen)
      intro hnil
      rw [hnil] at this
      simp at this
    have hsne : sortByRelevanceDesc (assignScores (d0 :: ds) sims) ≠ [] := by
      intro hnil
      have hperm := sortByRelevanceDesc_perm (assignScores (d0 :: ds) sims)
      rw [hnil] at hperm
      exact hne (List.Perm.nil_eq hperm).symm
    subst hdoc
    simp only [rank_documents_by_similarity, hnl, if_false, hfe]
    simp [List.isEmpty_iff, hsne, hfe]

set_option maxRecDepth 20000 in
/-- C5 (counterexample): with two candidates scoring 0 and 1, the document
scoring 0 — a near-zero match, below the configured `SIMILARITY_THRESHOLD`
default of 0.1 — is retained in the returned ranking: the cutoff in the code
is the hard-coded `min_score = 0.0`, which no cosine score falls below, so
nothing is ever dropped. -/
theorem score_cutoff_counterexample :
    rank_documents_by_similarity (.ok [0, 1]) [docX, docY] =
      [{ docY with score := some 1 }, { docX with score := some 0 }] ∧
    (0 : ℚ) < 1 / 10 := by
  refine ⟨by decide, by norm_num⟩

/-- C5 (amended): the ranking filter uses the hard-coded cutoff
`min_score = 0.0` (the configured `similarity_threshold` of `RAGSystem` is
never consulted), so for the nonnegative cosine scores no candidate is ever
dropped: the returned ranking has exactly one entry per candidate, and the
keep-the-single-best fallback `ranked_docs[:1]` is unreachable. -/
theorem score_cutoff_is_vacuous (documents : List Doc) (sims : List ℚ)
    (hlen : sims.length = documents.length)
    (hpos : ∀ s ∈ sims, 0 ≤ s) :
    (rank_documents_by_similarity (.ok sims) documents).length =
      documents.length := by
  rw [rank_ok_eq_sorted documents sims hlen hpos]
  exact ((sortByRelevanceDesc_perm _).length_eq).trans
    (length_assignScores documents sims hlen)

/-- Witness for `score_cutoff_is_vacuous` at two documents with scores
0 and 1. -/
theorem score_cutoff_is_vacuous_witness :
    (([0, 1] : List ℚ).length = [docX, docY].length ∧
      ∀ s ∈ ([0, 1] : List ℚ), 0 ≤ s) ∧
    (rank_documents_by_similarity (.ok [0, 1]) [docX, docY]).length =
      [docX, docY].length := by
  refine ⟨⟨by decide, by decide⟩, ?_⟩
  exact score_cutoff_is_vacuous [docX, docY] [0, 1] (by decide) (by decide)

/-- C7 (confirmed): for more than one candidate and one cosine similarity per
document (the contract of the external vectorizer, whose values lie in
`[0, 1]` for nonnegative vectors), the ranking assigns each returned document
a score in `[0, 1]`, returns them sorted descending by score, and keeps
score ties in retrieval order (the documents of any fixed score value appear
exactly as in the score-assigned retrieval-order list). -/
theorem rank_scores_sorted_stable (documents : List Doc) (sims : List ℚ)
    (hlen : sims.length = documents.length)
    (hN : 1 < documents.length)
    (hb : ∀ s ∈ sims, 0 ≤ s ∧ s ≤ 1) :
    (∀ d ∈ rank_documents_by_similarity (.ok sims) documents,
        0 ≤ relevance d ∧ relevance d ≤ 1) ∧
    (rank_documents_by_similarity (.ok sims) documents).Pairwise
      (fun a b => relevance b ≤ relevance a) ∧
    ∀ c : ℚ, (rank_documents_by_similarity (.ok sims) documents).filter
        (fun d => relevance d == c) =
      (assignScores documents sims).filter (fun d => relevance d == c) := by
  have hpos : ∀ s ∈ sims, 0 ≤ s := fun s hs => (hb s hs).1
  rw [rank_ok_eq_sorted documents sims hlen hpos]
  refine ⟨?_, pairwise_sortByRelevanceDesc _, ?_⟩
  · intro d hd
    have hd' : d ∈ assignScores documents sims :=
      (sortByRelevanceDesc_perm _).mem_iff.mp hd
    exact hb _ (relevance_of_mem_assignScores documents sims d hd')
  · intro c
    exact filter_sortByRelevanceDesc _ c

/-- Witness for `rank_scores_sorted_stable` at two documents with scores
0 and 1. -/
theorem rank_scores_sorted_stable_witness :
    (([0, 1] : List ℚ).length = [docX, docY].length ∧
      1 < [docX, docY].length ∧
      ∀ s ∈ ([0, 1] : List ℚ), 0 ≤ s ∧ s ≤ 1) ∧
    ((∀ d ∈ rank_documents_by_similarity (.ok [0, 1]) [docX, docY],
        0 ≤ relevance d ∧ relevance d ≤ 1) ∧
    (rank_documents_by_similarity (.ok [0, 1]) [docX, docY]).Pairwise
      (fun a b => relevance b ≤ relevance a) ∧
    ∀ c : ℚ, (rank_documents_by_similarity (.ok [0, 1]) [docX, docY]).filter
        (fun d => relevance d == c) =
      (assignScores [docX, docY] [0, 1]).filter (fun d => relevance d == c)) := by
  refine ⟨⟨by decide, by decide, by decide⟩, ?_⟩
  exact rank_scores_sorted_stable [docX, docY] [0, 1] (by decide) (by decide)
    (by decide)

/-! ## Lemmas about the retrieval pipeline -/

theorem sortByRelevanceDesc_ne_nil (l : List Doc) (h : l ≠ []) :
    sortByRelevanceDesc l ≠ [] := by
  intro h0
  have hperm := sortByRelevanceDesc_perm l
  rw [h0] at hperm
  exact h (List.Perm.nil_eq hperm).symm

theorem assignScores_ne_nil (documents : List Doc) (sims : List ℚ)
    (hne : documents ≠ []) (hl : ¬ sims.length < documents.length) :
    assignScores documents sims ≠ [] := by
  have h1 : 0 < documents.length := List.length_pos.mpr hne
  intro h0
  have h2 : min documents.length sims.length = 0 := by
    simpa [assignScores, List.length_zip] using congrArg List.length h0
  rcases Nat.min_eq_zero_iff.mp h2 with h3 | h3 <;> omega

theorem rank_ne_nil (simsRes : Except String (List ℚ)) (documents : List Doc)
    (hne : documents ≠ []) :
    rank_documents_by_similarity simsRes documents ≠ [] := by
  cases simsRes with
  | error e =>
    simp only [rank_documents_by_similarity, ne_eq, List.map_eq_nil_iff]
    exact hne
  | ok sims =>
    by_cases hl : sims.length < documents.length
    · simp only [rank_documents_by_similarity, hl, if_true, ne_eq,
        List.map_eq_nil_iff]
      exact hne
    · simp only [rank_documents_by_similarity, hl, if_false]
      have hsne := sortByRelevanceDesc_ne_nil _
        (assignScores_ne_nil documents sims hne hl)
      by_cases hf : ((sortByRelevanceDesc (assignScores documents sims)).filter
          (fun d => 0 ≤ relevance d)).isEmpty
      · simp only [hf, if_true]
        cases hsd : sortByRelevanceDesc (assignScores documents sims) with
        | nil => exact absurd hsd hsne
        | cons a as => simp
      · simp only [hf, if_false]
        simpa [List.isEmpty_iff] using hf

theorem finalizeDocs_ok_ne_nil (sims : String → List String → Except String (List ℚ))
    (query : String) (limit : ℕ) (documents : List Doc) (ds : List Doc)
    (hlim : 1 ≤ limit) (hne : documents ≠ [])
    (h : finalizeDocs sims query limit documents = .ok ds) : ds ≠ [] := by
  rw [finalizeDocs] at h
  rw [if_neg (by simpa [List.isEmpty_iff] using hne)] at h
  by_cases hlen : 1 < documents.length
  · rw [if_pos hlen] at h
    injection h with hds
    rw [← hds]
    have hr := rank_ne_nil (sims query (documents.map combinedText)) documents hne
    intro h0
    rcases List.take_eq_nil_iff.mp h0 with h1 | h1
    · omega
    · exact hr h1
  · rw [if_neg hlen] at h
    injection h with hds
    rw [← hds]
    simpa [ne_eq, List.map_eq_nil_iff] using hne

theorem fallback_search_tiers (exec : MongoQuery → ℕ → Except String (List Doc))
    (q : String) (lim : ℕ) :
    (fallback_search exec q lim).2 = [] ∨
    (fallback_search exec q lim).2 = [.perToken] := by
  rw [fallback_search]
  by_cases h : (((pySplitWs q).filter fun w => 3 < w.length).map pyLower).isEmpty
  · left
    simp [h]
  · right
    simp [h]

theorem fallback_search_empty_question
    (exec : MongoQuery → ℕ → Except String (List Doc)) (lim : ℕ) :
    fallback_search exec "" lim = ([], []) := rfl

theorem foldl_exec_empty (exec : MongoQuery → ℕ → Except String (List Doc))
    (hexec : ∀ qu n, exec qu n = .ok []) :
    ∀ (ws : List String) (acc : List Doc),
      ws.foldl (fun acc w => match exec (tokenQueryFor w) 3 with
        | .error _ => acc
        | .ok docs => acc ++ docs) acc = acc := by
  intro ws
  induction ws with
  | nil => intro acc; rfl
  | cons w ws ih =>
    intro acc
    rw [List.foldl_cons]
    have hstep : (match exec (tokenQueryFor w) 3 with
        | .error _ => acc
        | .ok docs => acc ++ docs) = acc := by
      simp only [hexec, List.append_nil]
    rw [hstep]
    exact ih acc

theorem fallback_search_empty (exec : MongoQuery → ℕ → Except String (List Doc))
    (q : String) (lim : ℕ) (hexec : ∀ qu n, exec qu n = .ok []) :
    (fallback_search exec q lim).1 = [] := by
  rw [fallback_search]
  by_cases h : (((pySplitWs q).filter fun w => 3 < w.length).map pyLower).isEmpty
  · simp [h]
  · rw [if_neg h]
    rw [foldl_exec_empty exec hexec]
    simp [dedupById, dedupByIdGo]

theorem search_documents_tiers (exec : MongoQuery → ℕ → Except String (List Doc))
    (sims : String → List String → Except String (List ℚ))
    (q : String) (f : List (FieldName × String)) (lim : ℕ) :
    (search_documents exec sims q f lim).2 = [.primary] ∨
    (search_documents exec sims q f lim).2 = [.primary, .substringOR] := by
  rw [search_documents]
  cases exec (primaryQueryFor q) (lim * 3) with
  | error e => left; rfl
  | ok docs1 =>
    dsimp only
    by_cases h : docs1.isEmpty ∧ q ≠ ""
    · rw [if_pos h]
      cases exec (substringQueryFor q) (lim * 3) with
      | error e => right; rfl
      | ok docs2 => right; rfl
    · rw [if_neg h]
      left; rfl

theorem substringOR_mem_search_tiers
    (exec : MongoQuery → ℕ → Except String (List Doc))
    (sims : String → List String → Except String (List ℚ))
    (q : String) (f : List (FieldName × String)) (lim : ℕ)
    (h : Tier.substringOR ∈ (search_documents exec sims q f lim).2) :
    exec (primaryQueryFor q) (lim * 3) = .ok [] := by
  rw [search_documents] at h
  rcases hex : exec (primaryQueryFor q) (lim * 3) with e | docs1 <;>
    rw [hex] at h <;> dsimp only at h
  · simp at h
  · split at h
    · rename_i hc
      rw [List.isEmpty_iff.mp hc.1]
    · dsimp only at h
      simp at h

theorem search_documents_ok_nil
    (exec : MongoQuery → ℕ → Except String (List Doc))
    (sims : String → List String → Except String (List ℚ))
    (q : String) (f : List (FieldName × String)) (lim : ℕ) (hlim : 1 ≤ lim)
    (h : (search_documents exec sims q f lim).1 = .ok []) :
    exec (primaryQueryFor q) (lim * 3) = .ok [] ∧
      (q = "" ∧ (search_documents exec sims q f lim).2 = [.primary] ∨
       q ≠ "" ∧ (search_documents exec sims q f lim).2 = [.primary, .substringOR] ∧
         exec (substringQueryFor q) (lim * 3) = .ok []) := by
  rw [search_documents] at h ⊢
  rcases hex : exec (primaryQueryFor q) (lim * 3) with e | docs1 <;>
    rw [hex] at h <;> dsimp only at h ⊢
  · simp at h
  · split at h
    · rename_i hc
      rw [if_pos hc]
      rcases hex2 : exec (substringQueryFor q) (lim * 3) with e2 | docs2 <;>
        rw [hex2] at h <;> dsimp only at h ⊢
      · simp at h
      · have hd2 : docs2 = [] := by
          by_contra hne
          exact finalizeDocs_ok_ne_nil sims q lim docs2 [] hlim hne h rfl
        subst hd2
        exact ⟨by rw [List.isEmpty_iff.mp hc.1], Or.inr ⟨hc.2, rfl, rfl⟩⟩
    · rename_i hc
      rw [if_neg hc]
      dsimp only at h ⊢
      have hd1 : docs1 = [] := by
        by_contra hne
        exact finalizeDocs_ok_ne_nil sims q lim docs1 [] hlim hne h rfl
      subst hd1
      have hq : q = "" := by
        by_contra hq
        exact hc ⟨rfl, hq⟩
      exact ⟨rfl, Or.inl ⟨hq, rfl⟩⟩

theorem process_question_eq (exec : MongoQuery → ℕ → Except String (List Doc))
    (sims : String → List String → Except String (List ℚ))
    (api : String → Except String OpenAIOut)
    (q : String) (f : List (FieldName × String)) (lim maxCtx : ℕ) :
    process_question exec sims api q f lim maxCtx =
      { result :=
          match retrievedDocs exec sims q f lim with
          | .error e => .error e
          | .ok [] => .ok noDocsResponse
          | .ok ds =>
            match api (generate_prompt q (prepare_context maxCtx ds)) with
            | .error e => .error e
            | .ok o => .ok
                { answer := pyStrip o.content
                  context_used := prepare_context maxCtx ds
                  sources := prepare_sources ds
                  tokens_used :=
                    .usage o.prompt_tokens o.completion_tokens o.total_tokens }
        promptsSent :=
          match retrievedDocs exec sims q f lim with
          | .error _ => []
          | .ok [] => []
          | .ok ds => [generate_prompt q (prepare_context maxCtx ds)]
        tiers :=
          (search_documents exec sims q f lim).2 ++
            (match (search_documents exec sims q f lim).1 with
             | .ok [] => (fallback_search exec q lim).2
             | _ => []) } := by
  rw [process_question, retrievedDocs]
  rcases hsd : search_documents exec sims q f lim with ⟨res1, t1⟩
  rcases hfb : fallback_search exec q lim with ⟨fd, ft⟩
  cases res1 with
  | error e => simp
  | ok docs1 =>
    cases docs1 with
    | nil =>
      cases fd with
      | nil => simp
      | cons d ds =>
        rcases hapi : api (generate_prompt q (prepare_context maxCtx (d :: ds))) with
            e | o <;>
          simp [hapi]
    | cons d ds =>
      rcases hapi : api (generate_prompt q (prepare_context maxCtx (d :: ds))) with
          e | o <;>
        simp [hapi]

/-! ## Claims about the prompt, error propagation and filters -/

/-- C1 (amended): the only prompt ever dispatched to the completion API is
the untouched instruction template around the assembled context and the
question: `process_question` never applies `optimize_prompt` (nor
`validate_prompt_length`), so the maximum-length check exists in
`openai_service.py` but is not enforced before dispatch. -/
theorem prompt_dispatched_is_raw_template
    (exec : MongoQuery → ℕ → Except String (List Doc))
    (sims : String → List String → Except String (List ℚ))
    (api : String → Except String OpenAIOut)
    (q : String) (f : List (FieldName × String)) (lim maxCtx : ℕ) :
    (process_question exec sims api q f lim maxCtx).promptsSent =
      match retrievedDocs exec sims q f lim with
      | .error _ => []
      | .ok [] => []
      | .ok ds => [generate_prompt q (prepare_context maxCtx ds)] := by
  rw [process_question_eq]

set_option maxRecDepth 20000 in
/-- C1 (counterexample): with `OPENAI_MAX_TOKENS` configured to 3900 the
prompt budget is 100 estimated tokens; processing a 77-character question
over one retrieved document dispatches exactly one prompt, whose estimated
token count exceeds the budget (`validate_prompt_length` is `false` on it),
yet it contains no truncation marker and is exactly the raw template output —
the context portion was not truncated before dispatch. -/
theorem prompt_budget_counterexample :
    ((process_question execOneDoc simsNone apiFixed longQuestion [] 5
        3000).promptsSent.map (validate_prompt_length 3900)) = [false] ∧
    ((process_question execOneDoc simsNone apiFixed longQuestion [] 5
        3000).promptsSent.map
      (fun p => strContains p "[Contexto truncado para otimização]")) = [false] ∧
    (process_question execOneDoc simsNone apiFixed longQuestion [] 5
        3000).promptsSent =
      [generate_prompt longQuestion
        (prepare_context 3000 [{ docX with score := some 1 }])] := by
  refine ⟨by decide, by decide, by decide⟩

/-- C3 (amended): a retrieval failure is re-raised by `process_question`
(`rag_system.py:58`–60), not absorbed: the result is the propagated error,
and the HTTP layer answers with the 500 `Erro interno` envelope — not with
the fixed "no relevant documents" response, which is produced only by a
successful empty retrieval. -/
theorem retrieval_error_propagates
    (exec : MongoQuery → ℕ → Except String (List Doc))
    (sims : String → List String → Except String (List ℚ))
    (api : String → Except String OpenAIOut)
    (q : String) (f : List (FieldName × String)) (lim maxCtx : ℕ) (e : String)
    (h : (search_documents exec sims q f lim).1 = .error e) :
    (process_question exec sims api q f lim maxCtx).result = .error e ∧
    ask_question_outcome (process_question exec sims api q f lim maxCtx).result =
      { statusCode := 500, statusField := "error",
        errorMsg := some ("Erro interno: " ++ e) } := by
  have hr : retrievedDocs exec sims q f lim = .error e := by
    rw [retrievedDocs, h]
  have h1 : (process_question exec sims api q f lim maxCtx).result = .error e := by
    rw [process_question_eq]
    dsimp only
    rw [hr]
  exact ⟨h1, by rw [h1]; rfl⟩

/-- Witness for `retrieval_error_propagates`: the always-raising store. -/
theorem retrieval_error_propagates_witness :
    (search_documents execFail simsNone "ola" [] 5).1 =
      .error "store unreachable" ∧
    ((process_question execFail simsNone apiFixed "ola" [] 5 3000).result =
        .error "store unreachable" ∧
      ask_question_outcome
          (process_question execFail simsNone apiFixed "ola" [] 5 3000).result =
        { statusCode := 500, statusField := "error",
          errorMsg := some "Erro interno: store unreachable" }) := by
  refine ⟨rfl, ?_⟩
  exact retrieval_error_propagates execFail simsNone apiFixed "ola" [] 5 3000
    "store unreachable" rfl

/-- C3 (counterexample): when the store raises, `process_question` does not
return the fixed "no relevant documents" response — the exception propagates
to the caller. -/
theorem retrieval_error_counterexample :
    (process_question execFail simsNone apiFixed "ola" [] 5 3000).result =
      .error "store unreachable" ∧
    (process_question execFail simsNone apiFixed "ola" [] 5 3000).result ≠
      .ok noDocsResponse := by
  refine ⟨rfl, ?_⟩
  intro hcontra
  exact Except.noConfusion
    (show (Except.error "store unreachable" : Except String RagResponse) =
      .ok noDocsResponse from hcontra)

/-- C4 (counterexample): with the store holding only the art-history document
(whose `subject` does not contain the filter value "math") and a non-empty
`subject = "math"` filter built by the route, the primary query — a text
search on the question alone — still returns that document, scored 1.0: the
filters do not restrict the result. -/
theorem filters_ignored_counterexample :
    (search_documents execHistory simsNone "calculus"
        (buildFilters (some "math") none none) 5).1 =
      .ok [{ docHistory with score := some 1 }] ∧
    buildFilters (some "math") none none = [(FieldName.subject, "math")] ∧
    ciContains "History of Art" "math" = false := by
  refine ⟨rfl, by decide, by decide⟩

/-- C4 (amended): `search_documents` ignores its `filters` argument entirely
(its result is the same for any two filter mappings); the AND of
case-insensitive substring conditions over the non-empty stripped filter
values is built only by `get_document_count`'s query, where it has exactly
the claimed conjunctive semantics. -/
theorem search_ignores_filters :
    (∀ (exec : MongoQuery → ℕ → Except String (List Doc))
        (sims : String → List String → Except String (List ℚ))
        (q : String) (lim : ℕ) (f1 f2 : List (FieldName × String)),
      search_documents exec sims q f1 lim = search_documents exec sims q f2 lim) ∧
    ∀ (tm : String → Doc → Bool) (fs : List (FieldName × String)) (d : Doc),
      evalQuery tm (countQuery fs) d =
        (fs.filter fun p => p.2 ≠ "" ∧ pyStrip p.2 ≠ "").all
          (fun p => ciContains ((getField d p.1).getD "") (pyStrip p.2)) := by
  constructor
  · intro exec sims q lim f1 f2
    rfl
  · intro tm fs d
    simp [countQuery, evalQuery, List.all_map, Function.comp]

/-! ## Claims about tier order, the envelope and the empty store -/

/-- C8 (confirmed): the retrieval tiers are attempted in the fixed order
primary → OR-of-substring → per-token (the attempted-tier trace is always a
prefix of that order), the substring tier runs only after the primary query
returned zero documents, and the per-token tier runs only after the substring
query also returned zero documents (and the question is non-empty). -/
theorem retrieval_tier_escalation
    (exec : MongoQuery → ℕ → Except String (List Doc))
    (sims : String → List String → Except String (List ℚ))
    (api : String → Except String OpenAIOut)
    (q : String) (f : List (FieldName × String)) (lim maxCtx : ℕ)
    (hlim : 1 ≤ lim) :
    ((process_question exec sims api q f lim maxCtx).tiers = [.primary] ∨
     (process_question exec sims api q f lim maxCtx).tiers =
        [.primary, .substringOR] ∨
     (process_question exec sims api q f lim maxCtx).tiers =
        [.primary, .substringOR, .perToken]) ∧
    (Tier.substringOR ∈ (process_question exec sims api q f lim maxCtx).tiers →
      exec (primaryQueryFor q) (lim * 3) = .ok []) ∧
    (Tier.perToken ∈ (process_question exec sims api q f lim maxCtx).tiers →
      q ≠ "" ∧ exec (substringQueryFor q) (lim * 3) = .ok []) := by
  have htiers : (process_question exec sims api q f lim maxCtx).tiers =
      (search_documents exec sims q f lim).2 ++
        (match (search_documents exec sims q f lim).1 with
         | .ok [] => (fallback_search exec q lim).2
         | _ => []) := by rw [process_question_eq]
  have hst := search_documents_tiers exec sims q f lim
  rcases hres : (search_documents exec sims q f lim).1 with e | ds
  · rw [hres] at htiers
    dsimp only at htiers
    rw [List.append_nil] at htiers
    refine ⟨?_, ?_, ?_⟩
    · rcases hst with h | h
      · exact Or.inl (htiers.trans h)
      · exact Or.inr (Or.inl (htiers.trans h))
    · intro hmem
      rw [htiers] at hmem
      exact substringOR_mem_search_tiers exec sims q f lim hmem
    · intro hmem
      rw [htiers] at hmem
      rcases hst with h | h <;> rw [h] at hmem <;> simp at hmem
  · cases ds with
    | cons d ds' =>
      rw [hres] at htiers
      dsimp only at htiers
      rw [List.append_nil] at htiers
      refine ⟨?_, ?_, ?_⟩
      · rcases hst with h | h
        · exact Or.inl (htiers.trans h)
        · exact Or.inr (Or.inl (htiers.trans h))
      · intro hmem
        rw [htiers] at hmem
        exact substringOR_mem_search_tiers exec sims q f lim hmem
      · intro hmem
        rw [htiers] at hmem
        rcases hst with h | h <;> rw [h] at hmem <;> simp at hmem
    | nil =>
      obtain ⟨hprim, hcase⟩ := search_documents_ok_nil exec sims q f lim hlim hres
      rw [hres] at htiers
      dsimp only at htiers
      rcases hcase with ⟨hq, ht2⟩ | ⟨hq, ht2, hsub⟩
      · subst hq
        rw [ht2, fallback_search_empty_question, List.append_nil] at htiers
        refine ⟨Or.inl htiers, fun _ => hprim, ?_⟩
        intro hmem
        rw [htiers] at hmem
        simp at hmem
      · rw [ht2] at htiers
        rcases fallback_search_tiers exec q lim with hf | hf <;> rw [hf] at htiers
        · rw [List.append_nil] at htiers
          exact ⟨Or.inr (Or.inl htiers), fun _ => hprim, fun _ => ⟨hq, hsub⟩⟩
        · exact ⟨Or.inr (Or.inr htiers), fun _ => hprim, fun _ => ⟨hq, hsub⟩⟩

/-- Witness for `retrieval_tier_escalation`: the empty store with a two-word
question drives the run through all three tiers. -/
theorem retrieval_tier_escalation_witness :
    1 ≤ 5 ∧
    (((process_question execEmpty simsNone apiFixed "hello there" [] 5
          3000).tiers = [.primary] ∨
      (process_question execEmpty simsNone apiFixed "hello there" [] 5
          3000).tiers = [.primary, .substringOR] ∨
      (process_question execEmpty simsNone apiFixed "hello there" [] 5
          3000).tiers = [.primary, .substringOR, .perToken]) ∧
    (Tier.substringOR ∈ (process_question execEmpty simsNone apiFixed
        "hello there" [] 5 3000).tiers →
      execEmpty (primaryQueryFor "hello there") (5 * 3) = .ok []) ∧
    (Tier.perToken ∈ (process_question execEmpty simsNone apiFixed
        "hello there" [] 5 3000).tiers →
      "hello there" ≠ "" ∧
        execEmpty (substringQueryFor "hello there") (5 * 3) = .ok [])) := by
  refine ⟨by decide, ?_⟩
  exact retrieval_tier_escalation execEmpty simsNone apiFixed "hello there" []
    5 3000 (by decide)

/-- C9 (amended): every successful envelope either is the fixed no-documents
response — whose `tokens_used` is the bare number 0, not an object — or
carries `tokens_used` as the usage object with prompt, completion and total
counters (the documents-found path). -/
theorem tokens_used_shape
    (exec : MongoQuery → ℕ → Except String (List Doc))
    (sims : String → List String → Except String (List ℚ))
    (api : String → Except String OpenAIOut)
    (q : String) (f : List (FieldName × String)) (lim maxCtx : ℕ)
    (r : RagResponse)
    (h : (process_question exec sims api q f lim maxCtx).result = .ok r) :
    r = noDocsResponse ∨
      ∃ pt ct tt, r.tokens_used = TokensUsed.usage pt ct tt := by
  rw [process_question_eq] at h
  dsimp only at h
  rcases hrd : retrievedDocs exec sims q f lim with e | ds <;> rw [hrd] at h
  · simp at h
  · cases ds with
    | nil =>
      dsimp only at h
      injection h with h'
      exact Or.inl h'.symm
    | cons d ds' =>
      dsimp only at h
      rcases hapi : api (generate_prompt q (prepare_context maxCtx (d :: ds')))
          with e | o <;> rw [hapi] at h <;> dsimp only at h
      · simp at h
      · injection h with h'
        rw [← h']
        exact Or.inr ⟨o.prompt_tokens, o.completion_tokens, o.total_tokens, rfl⟩

/-- Witness for `tokens_used_shape`: the one-document store with the fixed
API oracle yields `sampleResponse`, whose `tokens_used` is a usage object. -/
theorem tokens_used_shape_witness :
    (process_question execOneDoc simsNone apiFixed "ola" [] 5 3000).result =
      .ok sampleResponse ∧
    (sampleResponse = noDocsResponse ∨
      ∃ pt ct tt, sampleResponse.tokens_used = TokensUsed.usage pt ct tt) := by
  refine ⟨rfl, ?_⟩
  exact tokens_used_shape execOneDoc simsNone apiFixed "ola" [] 5 3000
    sampleResponse rfl

/-- C9 (counterexample): on the no-documents path the envelope's
`tokens_used` is the number 0, not an object with prompt/completion/total
counters. -/
theorem tokens_used_number_counterexample :
    (process_question execEmpty simsNone apiFixed "hello there" [] 5
        3000).result = .ok noDocsResponse ∧
    noDocsResponse.tokens_used = TokensUsed.num 0 ∧
    TokensUsed.isUsageDict (TokensUsed.num 0) = false :=
  ⟨rfl, rfl, rfl⟩

/-- C10 (confirmed): when every store query returns zero documents, the
response is exactly the fixed no-information-found envelope — apology answer,
empty context, empty sources, `tokens_used = 0` — and no prompt is ever sent
to the completion API. -/
theorem empty_store_fixed_response
    (exec : MongoQuery → ℕ → Except String (List Doc))
    (sims : String → List String → Except String (List ℚ))
    (api : String → Except String OpenAIOut)
    (q : String) (f : List (FieldName × String)) (lim maxCtx : ℕ)
    (hexec : ∀ qu n, exec qu n = .ok []) :
    (process_question exec sims api q f lim maxCtx).result =
      .ok noDocsResponse ∧
    (process_question exec sims api q f lim maxCtx).promptsSent = [] ∧
    noDocsResponse.sources = [] ∧
    noDocsResponse.context_used = "" ∧
    noDocsResponse.tokens_used = TokensUsed.num 0 := by
  have hsearch : (search_documents exec sims q f lim).1 = .ok [] := by
    rw [search_documents]
    simp only [hexec]
    split
    · rfl
    · rfl
  have hretr : retrievedDocs exec sims q f lim = .ok [] := by
    rw [retrievedDocs, hsearch]
    dsimp only
    rw [fallback_search_empty exec q lim hexec]
  refine ⟨?_, ?_, rfl, rfl, rfl⟩
  · rw [process_question_eq]
    dsimp only
    rw [hretr]
  · rw [process_question_eq]
    dsimp only
    rw [hretr]

/-- Witness for `empty_store_fixed_response` at the concrete empty store. -/
theorem empty_store_fixed_response_witness :
    (∀ qu n, execEmpty qu n = Except.ok ([] : List Doc)) ∧
    ((process_question execEmpty simsNone apiFixed "prerequisites" [] 5
        3000).result = .ok noDocsResponse ∧
    (process_question execEmpty simsNone apiFixed "prerequisites" [] 5
        3000).promptsSent = [] ∧
    noDocsResponse.sources = [] ∧
    noDocsResponse.context_used = "" ∧
    noDocsResponse.tokens_used = TokensUsed.num 0) := by
  refine ⟨fun _ _ => rfl, ?_⟩
  exact empty_store_fixed_response execEmpty simsNone apiFixed "prerequisites"
    [] 5 3000 (fun _ _ => rfl)

end RagService
